import Mathlib

/-!
Verification of `metarProcessing.py`

A shallow embedding of the METAR-bulletin processor: the record segmenter
(`getNextRecord` with its three line regexes), the sequential group decoder
(`decodeMetar` over the twelve-entry handler table), and the VMC minima
classifier (`vmcMinima`).

Modelling conventions:
* Python strings are `String` / `List Char`; a cursor is a `Nat` index.
* Each `re` pattern used by the program is hand-compiled to an anchored
  matcher over `List Char` that reproduces the pattern's backtracking
  behaviour on its alternatives (all the patterns only need committed
  choice with explicit fallback, which is established case by case in
  comments at the matchers).
* A Python exception (ZeroDivisionError in the visibility handlers,
  KeyError on the runway prefix translation table) is `none`; the decoder's
  unbounded `while` loops get explicit fuel, and the outer `Option` layer of
  `decodeMetar` is `none` exactly when fuel runs out (proved unreachable).
* Python float semantics are modelled exactly where they are observable:
  `roundDouble` is the correctly rounded (round-to-nearest, ties-to-even)
  binary64 value of a nonnegative rational and gives the statute-mile
  comparison its double-precision meaning, and CPython's `OverflowError`
  for int/int true division (exact quotient at or above `2^1024 - 2^970`)
  is `none`, like `ZeroDivisionError`; only the decimal text of a rendered
  float is abstracted to the exact rational it denotes, since bit-exact
  float formatting is not part of the decoded structure.
-/

/-! ## Character classes (Python `\s`, `\d`, `\w` on the ASCII inputs) -/

def pSpace (c : Char) : Bool :=
  c = ' ' || c = '\t' || c = '\n' || c = '\r' || c = '\x0b' || c = '\x0c'

def pDigit (c : Char) : Bool :=
  48 ≤ c.toNat && c.toNat ≤ 57

def pWord (c : Char) : Bool :=
  pDigit c || (97 ≤ c.toNat && c.toNat ≤ 122) || (65 ≤ c.toNat && c.toNat ≤ 90) || c = '_'

/-- Python `int()` on a digit string. -/
def natDigits (l : List Char) : Nat :=
  l.foldl (fun n c => n * 10 + (c.toNat - 48)) 0

/-! ## Scanning primitives -/

/-- Greedy run of characters satisfying `p` (regex `p*`): taken prefix and rest. -/
def takeRun (p : Char → Bool) : List Char → List Char × List Char
  | [] => ([], [])
  | c :: r =>
    if p c then
      let t := takeRun p r
      (c :: t.1, t.2)
    else ([], c :: r)

/-- Exactly `k` characters satisfying `p` (regex `p{k}`). -/
def takeK (p : Char → Bool) : Nat → List Char → Option (List Char × List Char)
  | 0, l => some ([], l)
  | _ + 1, [] => none
  | k + 1, c :: r =>
    if p c then (takeK p k r).map (fun t => (c :: t.1, t.2)) else none

/-- Greedy run of at most `k` characters satisfying `p`. -/
def takeAtMost (p : Char → Bool) : Nat → List Char → List Char × List Char
  | 0, l => ([], l)
  | _ + 1, [] => ([], [])
  | k + 1, c :: r =>
    if p c then
      let t := takeAtMost p k r
      (c :: t.1, t.2)
    else ([], c :: r)

/-- Regex `p{lo,hi}` (greedy): at most `hi` characters, failing below `lo`. -/
def takeBetween (p : Char → Bool) (lo hi : Nat) (l : List Char) :
    Option (List Char × List Char) :=
  let t := takeAtMost p hi l
  if lo ≤ t.1.length then some t else none

/-- Literal prefix: rest after consuming `w`. -/
def litP : List Char → List Char → Option (List Char)
  | [], l => some l
  | _ :: _, [] => none
  | c :: wr, x :: r => if x = c then litP wr r else none

/-- Optional single character from a class (regex `[..]?`, greedy). -/
def optChar (p : Char → Bool) : List Char → Option Char × List Char
  | [] => (none, [])
  | c :: r => if p c then (some c, r) else (none, c :: r)

/-! ### Conservation lemmas for the primitives -/

theorem takeRun_len (p : Char → Bool) :
    ∀ l : List Char, (takeRun p l).1.length + (takeRun p l).2.length = l.length := by
  intro l
  induction l with
  | nil => simp [takeRun]
  | cons c r ih =>
    simp only [takeRun]
    split
    · simp only [List.length_cons]
      omega
    · simp

theorem takeRun_rest_le (p : Char → Bool) (l : List Char) :
    (takeRun p l).2.length ≤ l.length := by
  have := takeRun_len p l
  omega

theorem takeK_len (p : Char → Bool) :
    ∀ (k : Nat) (l t r : List Char), takeK p k l = some (t, r) →
      t.length = k ∧ k + r.length = l.length := by
  intro k
  induction k with
  | zero =>
    intro l t r h
    simp [takeK] at h
    obtain ⟨h1, h2⟩ := h
    subst h1; subst h2
    simp
  | succ n ih =>
    intro l t r h
    cases l with
    | nil => simp [takeK] at h
    | cons c cr =>
      simp only [takeK] at h
      split at h
      · cases hk : takeK p n cr with
        | none => rw [hk] at h; simp at h
        | some tr =>
          rw [hk] at h
          simp at h
          obtain ⟨h1, h2⟩ := h
          obtain ⟨hl, hr⟩ := ih cr tr.1 tr.2 (by rw [hk])
          subst h1; subst h2
          simp [hl]
          omega
      · simp at h

theorem takeAtMost_len (p : Char → Bool) :
    ∀ (k : Nat) (l : List Char),
      (takeAtMost p k l).1.length + (takeAtMost p k l).2.length = l.length := by
  intro k
  induction k with
  | zero => intro l; simp [takeAtMost]
  | succ n ih =>
    intro l
    cases l with
    | nil => simp [takeAtMost]
    | cons c r =>
      simp only [takeAtMost]
      split
      · have := ih r
        simp only [List.length_cons]
        omega
      · simp

theorem takeBetween_len (p : Char → Bool) (lo hi : Nat) (l t r : List Char)
    (h : takeBetween p lo hi l = some (t, r)) :
    t.length + r.length = l.length ∧ lo ≤ t.length := by
  simp only [takeBetween] at h
  split at h
  · rename_i hlo
    simp only [Option.some.injEq] at h
    have hc := takeAtMost_len p hi l
    rw [h] at hc hlo
    exact ⟨hc, hlo⟩
  · simp at h

theorem litP_len :
    ∀ (w l r : List Char), litP w l = some r → w.length + r.length = l.length := by
  intro w
  induction w with
  | nil =>
    intro l r h
    simp [litP] at h
    subst h
    simp
  | cons c wr ih =>
    intro l r h
    cases l with
    | nil => simp [litP] at h
    | cons x xr =>
      simp only [litP] at h
      split at h
      · have := ih xr r h
        simp
        omega
      · simp at h

theorem optChar_len (p : Char → Bool) (l : List Char) :
    (optChar p l).2.length ≤ l.length := by
  cases l with
  | nil => simp [optChar]
  | cons c r =>
    simp only [optChar]
    split
    · simp
    · simp

/-! ## Group matchers

Each matcher is the hand-compilation of one `re` pattern of the source,
anchored at the head of its input (Python `pattern.match(s, pos)` is run on
`s.drop pos`).  It returns the named captures and the unconsumed rest.
Wherever a regex alternative or optional part can locally succeed while a
later mandatory part fails, the Python engine backtracks; in every pattern
of this program the fallback branch then fails on a disjoint first
character, so committed choice with an explicit fallback is equivalent
(noted per matcher). -/

structure FulltimeCaps where
  year : List Char
  month : List Char
  day : List Char
  hour : List Char
  minute : List Char
deriving DecidableEq

/-- Pattern `FULLTIME_RE = \s*(?P<year>\d{4})(?P<month>\d{2})(?P<day>\d{2})(?P<hour>\d{2})(?P<minute>\d{2})\s*`.
`\s` and `\d` are disjoint, so greedy `\s*` never backtracks. -/
def fulltimeMatch (l : List Char) : Option (FulltimeCaps × List Char) :=
  let r0 := (takeRun pSpace l).2
  match takeK pDigit 4 r0 with
  | none => none
  | some (year, r1) =>
  match takeK pDigit 2 r1 with
  | none => none
  | some (month, r2) =>
  match takeK pDigit 2 r2 with
  | none => none
  | some (day, r3) =>
  match takeK pDigit 2 r3 with
  | none => none
  | some (hour, r4) =>
  match takeK pDigit 2 r4 with
  | none => none
  | some (minute, r5) =>
    some ({ year := year, month := month, day := day, hour := hour, minute := minute },
          (takeRun pSpace r5).2)

/-- Pattern `TYPE_RE = \s*(?P<type>(METAR)|(SPECI)|(TAF))\s*`; the three literals are
pairwise incompatible, so the ordered alternation is committed. -/
def typeMatch (l : List Char) : Option (List Char × List Char) :=
  let r0 := (takeRun pSpace l).2
  match litP ['M','E','T','A','R'] r0 with
  | some r => some (['M','E','T','A','R'], (takeRun pSpace r).2)
  | none =>
  match litP ['S','P','E','C','I'] r0 with
  | some r => some (['S','P','E','C','I'], (takeRun pSpace r).2)
  | none =>
  match litP ['T','A','F'] r0 with
  | some r => some (['T','A','F'], (takeRun pSpace r).2)
  | none => none

/-- Pattern `ICAO_RE = \s*(COR\s)?(?P<icao>\w{4})\s*`.  If `COR`+space matches but the
following `\w{4}` fails, the engine retries without the optional group; that
retry reads `C`,`O`,`R` and then the space, which is not a word character, so
running the no-`COR` branch as fallback is exact. -/
def icaoMatch (l : List Char) : Option (List Char × List Char) :=
  let r0 := (takeRun pSpace l).2
  let withCor : Option (List Char × List Char) :=
    match litP ['C','O','R'] r0 with
    | none => none
    | some r1 =>
      match r1 with
      | c :: r2 => if pSpace c then takeK pWord 4 r2 else none
      | [] => none
  match withCor with
  | some (code, r) => some (code, (takeRun pSpace r).2)
  | none =>
    match takeK pWord 4 r0 with
    | none => none
    | some (code, r) => some (code, (takeRun pSpace r).2)

structure IssuanceCaps where
  day : List Char
  hour : List Char
  minute : List Char
deriving DecidableEq

/-- Pattern `ISSUANCE_TIME_RE = \s*(?P<day>\d{2})(?P<hour>\d{2})(?P<minute>\d{2})Z\s*`. -/
def issuanceMatch (l : List Char) : Option (IssuanceCaps × List Char) :=
  let r0 := (takeRun pSpace l).2
  match takeK pDigit 2 r0 with
  | none => none
  | some (day, r1) =>
  match takeK pDigit 2 r1 with
  | none => none
  | some (hour, r2) =>
  match takeK pDigit 2 r2 with
  | none => none
  | some (minute, r3) =>
  match litP ['Z'] r3 with
  | none => none
  | some r4 => some ({ day := day, hour := hour, minute := minute }, (takeRun pSpace r4).2)

structure WindCaps where
  dir : List Char
  speed : List Char
  gust : Option (List Char)
  unit : List Char
deriving DecidableEq

/-- Pattern `WIND_RE = \s*(?P<dir>[\d]{3}|VRB)(?P<speed>[\d]{2})(G(?P<gust>[\d]{2}))?(?P<unit>KT|MPS)\s*`.
Three digits and `VRB` are incompatible; a `G` without two digits makes both
the gust group and the following `KT|MPS` fail, as the fallback does. -/
def windMatch (l : List Char) : Option (WindCaps × List Char) :=
  let r0 := (takeRun pSpace l).2
  let dirRes : Option (List Char × List Char) :=
    match takeK pDigit 3 r0 with
    | some x => some x
    | none => (litP ['V','R','B'] r0).map (fun r => (['V','R','B'], r))
  match dirRes with
  | none => none
  | some (dir, r1) =>
  match takeK pDigit 2 r1 with
  | none => none
  | some (speed, r2) =>
  let gustRes : Option (List Char) × List Char :=
    match r2 with
    | 'G' :: r3 =>
      match takeK pDigit 2 r3 with
      | some (g, r4) => (some g, r4)
      | none => (none, 'G' :: r3)
    | _ => (none, r2)
  let unitRes : Option (List Char × List Char) :=
    match litP ['K','T'] gustRes.2 with
    | some r => some (['K','T'], r)
    | none => (litP ['M','P','S'] gustRes.2).map (fun r => (['M','P','S'], r))
  match unitRes with
  | none => none
  | some (unit, r5) =>
    some ({ dir := dir, speed := speed, gust := gustRes.1, unit := unit },
          (takeRun pSpace r5).2)

structure WindVarCaps where
  lower : List Char
  upper : List Char
deriving DecidableEq

/-- Pattern `WIND_VARIABILITY_RE = \s*(?P<lower>[\d]{3})V(?P<upper>[\d]{3})\s*`. -/
def windVarMatch (l : List Char) : Option (WindVarCaps × List Char) :=
  let r0 := (takeRun pSpace l).2
  match takeK pDigit 3 r0 with
  | none => none
  | some (lower, r1) =>
  match litP ['V'] r1 with
  | none => none
  | some r2 =>
  match takeK pDigit 3 r2 with
  | none => none
  | some (upper, r3) => some ({ lower := lower, upper := upper }, (takeRun pSpace r3).2)

/-- Core of both visibility patterns: `(?P<const>[\d]\s)?(?P<num>[\d]+)(/(?P<den>[\d]+))?SM`.
Captures (constant digit, numerator digits, optional denominator digits) and
the rest after `SM`.  Greedy `[\d]+` needs no backtracking (`/`, `S` are not
digits); a `/` without digits, or a locally matching `[\d]\s` constant whose
continuation fails, both make every backtracking retry fail on a
non-matching first character, so the fallbacks below are exact. -/
def denOpt (l : List Char) : Option (List Char) × List Char :=
  match l with
  | '/' :: r =>
    let denT := takeRun pDigit r
    if denT.1.isEmpty then (none, '/' :: r) else (some denT.1, denT.2)
  | _ => (none, l)

def smTail (l : List Char) : Option ((List Char × Option (List Char)) × List Char) :=
  let numT := takeRun pDigit l
  if numT.1.isEmpty then none
  else
    let denT := denOpt numT.2
    match litP ['S','M'] denT.2 with
    | none => none
    | some r3 => some ((numT.1, denT.1), r3)

def smCore (l : List Char) : Option ((Option Char × List Char × Option (List Char)) × List Char) :=
  match l with
  | c :: sp :: rest =>
    if pDigit c && pSpace sp then
      match smTail rest with
      | some ((num, den), r) => some ((some c, num, den), r)
      | none => (smTail l).map (fun x => ((none, x.1.1, x.1.2), x.2))
    else (smTail l).map (fun x => ((none, x.1.1, x.1.2), x.2))
  | _ => (smTail l).map (fun x => ((none, x.1.1, x.1.2), x.2))

/-- The meter alternative `([\d][\d][05][0])|([9]{4})`. -/
def meterMatch (l : List Char) : Option (List Char × List Char) :=
  match l with
  | a :: b :: c :: d :: rest =>
    if pDigit a && pDigit b && (c = '0' || c = '5') && d = '0' then some ([a, b, c, d], rest)
    else if a = '9' && b = '9' && c = '9' && d = '9' then some ([a, b, c, d], rest)
    else none
  | _ => none

structure VisCaps where
  const : Option Char
  num : Option (List Char)
  den : Option (List Char)
  meter : Option (List Char)
deriving DecidableEq

/-- Pattern `VISIBILITY_RE` of the decoder:
`\s*((?P<const>[\d]\s)?(?P<num>[\d]+)(/(?P<den>[\d]+))?SM)|(?P<meter>([\d][\d][05][0])|([9]{4}))\s*`.
The alternation has lowest precedence: the statute-mile alternative carries
the leading `\s*` and no trailing one, the meter alternative is anchored
directly at the cursor and carries the trailing `\s*`. -/
def visMatchDec (l : List Char) : Option (VisCaps × List Char) :=
  let r0 := (takeRun pSpace l).2
  match smCore r0 with
  | some ((c, num, den), r) =>
    some ({ const := c, num := some num, den := den, meter := none }, r)
  | none =>
    match meterMatch l with
    | none => none
    | some (m, r) =>
      some ({ const := none, num := none, den := none, meter := some m }, (takeRun pSpace r).2)

structure RunwayCaps where
  runway : List Char
  prefLow : Option Char
  low : List Char
  vary : Bool
  prefHigh : Option Char
  high : Option (List Char)
  unitFT : Bool
  trend : Option Char
deriving DecidableEq

def pPrefMP (c : Char) : Bool := c = 'M' || c = '|' || c = 'P'

def pRunwayLetter (c : Char) : Bool := c = 'L' || c = '|' || c = 'R' || c = 'C'

def pTrend (c : Char) : Bool := c = 'N' || c = 'D' || c = 'U'

/-- The optional `((?P<vary>V)(?P<prefix_high>[M|P]?)(?P<high>[\d]{4}))?` group:
a `V` whose digits fail makes the retry fail on `V` itself, so the fallback
skips the group. -/
def varyTry (l : List Char) : Option (Option Char × List Char) × List Char :=
  match l with
  | 'V' :: r4 =>
    let prefHighT := optChar pPrefMP r4
    match takeK pDigit 4 prefHighT.2 with
    | some (high, r5) => (some (prefHighT.1, high), r5)
    | none => (none, 'V' :: r4)
  | _ => (none, l)

/-- The optional `(?P<unit>FT)?` literal. -/
def ftTry (l : List Char) : Bool × List Char :=
  match litP ['F','T'] l with
  | some r => (true, r)
  | none => (false, l)

/-- Pattern `RUNWAY_RE = \s*(?P<runway>R[\d]+[L|R|C]?)/((?P<prefix_low>[M|P]?)(?P<low>[\d]{4})((?P<vary>V)(?P<prefix_high>[M|P]?)(?P<high>[\d]{4}))?(?P<unit>FT)?/?(?P<trend>[NDU]?))\s*`.
The character classes are written `[M|P]`, `[L|R|C]` in the source and so
also accept `|`.  Every optional piece is followed either by a mandatory
token on a disjoint character (so its backtracking retry fails anyway) or
only by optional pieces (so no backtracking occurs). -/
def runwayMatch (l : List Char) : Option (RunwayCaps × List Char) :=
  let r0 := (takeRun pSpace l).2
  match litP ['R'] r0 with
  | none => none
  | some r1 =>
  let digT := takeRun pDigit r1
  if digT.1.isEmpty then none
  else
    let letT := optChar pRunwayLetter digT.2
    let runwayName := 'R' :: digT.1 ++ (match letT.1 with | some c => [c] | none => [])
    match litP ['/'] letT.2 with
    | none => none
    | some r2 =>
    let prefLowT := optChar pPrefMP r2
    match takeK pDigit 4 prefLowT.2 with
    | none => none
    | some (low, r3) =>
    let varyT := varyTry r3
    let unitT := ftTry varyT.2
    let slashT := optChar (fun c => c = '/') unitT.2
    let trendT := optChar pTrend slashT.2
    some ({ runway := runwayName,
            prefLow := prefLowT.1,
            low := low,
            vary := varyT.1.isSome,
            prefHigh := match varyT.1 with | some (ph, _) => ph | none => none,
            high := match varyT.1 with | some (_, h) => some h | none => none,
            unitFT := unitT.1,
            trend := trendT.1 },
          (takeRun pSpace trendT.2).2)

structure WeatherCaps where
  intEnc : Option Char
  desc : Option (List Char)
  prec : List Char
  obsc : Option (List Char)
  other : Option (List Char)
deriving DecidableEq

/-- Ordered alternation of two-character literal codes (regex `AB|CD|...`),
committed because in `WEATHER_RE` everything after it is optional. -/
def code2Try (codes : List (Char × Char)) (l : List Char) : Option (List Char) × List Char :=
  match codes with
  | [] => (none, l)
  | (a, b) :: rest =>
    match l with
    | x :: y :: r =>
      if x = a && y = b then (some [a, b], r) else code2Try rest l
    | _ => code2Try rest l

def descCodes : List (Char × Char) :=
  [('B','C'), ('B','L'), ('D','R'), ('F','Z'), ('M','I'), ('P','R'), ('S','H'), ('T','S')]

def precCodes : List (Char × Char) :=
  [('D','Z'), ('G','R'), ('G','S'), ('I','C'), ('P','L'), ('R','A'), ('S','G'), ('S','N'), ('U','P')]

def obscCodes : List (Char × Char) :=
  [('B','R'), ('D','U'), ('F','G'), ('F','U'), ('H','Z'), ('P','Y'), ('S','A'), ('V','A')]

def otherCodes : List (Char × Char) :=
  [('D','S'), ('F','C'), ('P','O'), ('S','Q'), ('S','S')]

/-- Greedy star over the precipitation codes (`(DZ|GR|...)*`); capture is the
concatenation, as in the Python group.  Each iteration consumes two
characters, so fuel exceeding the input length is never exhausted. -/
def precStar : Nat → List Char → List Char × List Char
  | 0, l => ([], l)
  | fuel + 1, l =>
    match code2Try precCodes l with
    | (some c, r) =>
      let t := precStar fuel r
      (c ++ t.1, t.2)
    | (none, _) => ([], l)

/-- Pattern `WEATHER_RE = \s*(?P<int>(-|\+)?)(?P<desc>...)(?P<prec>(...)*)(?P<obsc>...)?(?P<other>...)?\s*`.
Every sub-group is optional, so the pattern matches at any position (possibly
with zero width) and the engine never backtracks across the greedy parts. -/
def weatherMatch (l : List Char) : Option (WeatherCaps × List Char) :=
  let r0 := (takeRun pSpace l).2
  let intT := optChar (fun c => c = '-' || c = '+') r0
  let descT := code2Try descCodes intT.2
  let precT := precStar (intT.2.length + 1) descT.2
  let obscT := code2Try obscCodes precT.2
  let otherT := code2Try otherCodes obscT.2
  some ({ intEnc := intT.1, desc := descT.1, prec := precT.1,
          obsc := obscT.1, other := otherT.1 },
        (takeRun pSpace otherT.2).2)

/-- Cover-code alternation of `CLOUDS_RE`: `SKC|FEW|SCT|BKN|OVC|VV`; no two
literals can match at the same position, so ordered choice is committed. -/
def coverTry (l : List Char) : Option (List Char × List Char) :=
  match litP ['S','K','C'] l with
  | some r => some (['S','K','C'], r)
  | none =>
  match litP ['F','E','W'] l with
  | some r => some (['F','E','W'], r)
  | none =>
  match litP ['S','C','T'] l with
  | some r => some (['S','C','T'], r)
  | none =>
  match litP ['B','K','N'] l with
  | some r => some (['B','K','N'], r)
  | none =>
  match litP ['O','V','C'] l with
  | some r => some (['O','V','C'], r)
  | none =>
  match litP ['V','V'] l with
  | some r => some (['V','V'], r)
  | none => none

/-- Pattern `CLOUDS_RE = \s*(?P<cover>SKC|FEW|SCT|BKN|OVC|VV)(?P<height>[\d]{2,4})\s*`. -/
def cloudsMatch (l : List Char) : Option ((List Char × List Char) × List Char) :=
  let r0 := (takeRun pSpace l).2
  match coverTry r0 with
  | none => none
  | some (cover, r1) =>
  match takeBetween pDigit 2 4 r1 with
  | none => none
  | some (height, r2) => some ((cover, height), (takeRun pSpace r2).2)

structure TempCaps where
  minusF1 : Bool
  temp : List Char
  minusF2 : Bool
  dewpoint : List Char
deriving DecidableEq

/-- Pattern `TEMP_RE = \s*(?P<minus_f1>M?)(?P<temp>\d{2})/(?P<minus_f2>M?)(?P<dewpoint>\d{2})\s*`;
an `M` not followed by two digits makes the retry without it fail on `M`
itself, so committed optional `M` is exact. -/
def tempMatch (l : List Char) : Option (TempCaps × List Char) :=
  let r0 := (takeRun pSpace l).2
  let m1T := optChar (fun c => c = 'M') r0
  match takeK pDigit 2 m1T.2 with
  | none => none
  | some (temp, r1) =>
  match litP ['/'] r1 with
  | none => none
  | some r2 =>
  let m2T := optChar (fun c => c = 'M') r2
  match takeK pDigit 2 m2T.2 with
  | none => none
  | some (dew, r3) =>
    some ({ minusF1 := m1T.1.isSome, temp := temp, minusF2 := m2T.1.isSome, dewpoint := dew },
          (takeRun pSpace r3).2)

structure AltimeterCaps where
  unitAQ : Option Char
  press : List Char
deriving DecidableEq

/-- Pattern `ALTIMETER_RE = \s*(?P<unit>A|Q)?(?P<press>\d{3,4})\s*`;
an `A`/`Q` not followed by three digits makes the retry fail on the letter. -/
def altimeterMatch (l : List Char) : Option (AltimeterCaps × List Char) :=
  let r0 := (takeRun pSpace l).2
  let uT := optChar (fun c => c = 'A' || c = 'Q') r0
  match takeBetween pDigit 3 4 uT.2 with
  | none => none
  | some (press, r1) => some ({ unitAQ := uT.1, press := press }, (takeRun pSpace r1).2)

/-! ## Handler renderings

One function per `_handle_*` translation.  Dictionary lookups whose key sets
provably cover every capture the matcher can produce are total (the Python
`KeyError` is unreachable for them); the two reachable failures —
`ZeroDivisionError` in `_handle_visibility` and a `KeyError` on the `|`
runway prefix — return `none`. -/

def natReprGo : Nat → Nat → List Char → List Char
  | 0, _, acc => acc
  | f + 1, n, acc =>
    if n = 0 then acc else natReprGo f (n / 10) (Char.ofNat (48 + n % 10) :: acc)

/-- Decimal rendering of `f"{n}"` for a natural number. -/
def natRepr (n : Nat) : String :=
  if n = 0 then "0" else String.mk (natReprGo (n + 1) n [])

/-- Decimal rendering of `f"{i}"` for an integer. -/
def intRepr (i : Int) : String :=
  if i < 0 then "-" ++ natRepr i.natAbs else natRepr i.natAbs

/-- Rendering of the exact rational that models the Python float
`constant + numerator / denominator` (float repr is not reproduced
bit-exactly; only non-emptiness and the value matter downstream). -/
def ratRepr (q : ℚ) : String :=
  (if q.num < 0 then "-" else "") ++ natRepr q.num.natAbs ++
    (if q.den = 1 then "" else "/" ++ natRepr q.den)

/-- Python `str.strip()` restricted to the `\s` characters. -/
def stripStr (s : String) : String :=
  String.mk (((s.data.dropWhile (fun c => pSpace c)).reverse.dropWhile (fun c => pSpace c)).reverse)

/-- Round a rational to the nearest integer, ties to even (IEEE-754
`roundTiesToEven` at integer granularity). -/
def roundHalfEven (m : ℚ) : ℤ :=
  let fl := ⌊m⌋
  let frac := m - fl
  if frac < 1 / 2 then fl
  else if 1 / 2 < frac then fl + 1
  else if fl % 2 = 0 then fl else fl + 1

/-- The IEEE-754 binary64 double nearest to a nonnegative rational
(round-to-nearest, ties-to-even), as the exact rational it denotes: 53
significant bits for normal magnitudes, fixed quantum `2^-1074` below
`2^-1022`.  Quotients at or beyond the overflow threshold never reach this
function (CPython raises `OverflowError` first); the classifier and the
visibility handler only form nonnegative values. -/
def roundDouble (q : ℚ) : ℚ :=
  if q ≤ 0 then 0
  else
    let e : ℤ := Int.log 2 q
    let scale : ℤ := max (e - 52) (-1074)
    (roundHalfEven (q / 2 ^ scale) : ℚ) * 2 ^ scale

/-- CPython's `int.__truediv__` raises `OverflowError` exactly when the
correctly rounded quotient would be `2^1024` or more, i.e. when the exact
quotient reaches `2^1024 - 2^970` (the IEEE round-to-nearest overflow
threshold for binary64). -/
def overflowThreshold : ℚ := ((2 ^ 1024 - 2 ^ 970 : ℕ) : ℚ)

def renderFulltime (c : FulltimeCaps) : String :=
  String.mk c.year ++ "-" ++ String.mk c.month ++ "-" ++ String.mk c.day ++ " " ++
    String.mk c.hour ++ ":" ++ String.mk c.minute

def renderType (t : List Char) : String := String.mk t

def renderIcao (c : List Char) : String := String.mk c

def renderIssuance (c : IssuanceCaps) : String :=
  String.mk c.day ++ "th " ++ String.mk c.hour ++ ":" ++ String.mk c.minute

def renderWind (w : WindCaps) : String :=
  "direction: " ++ String.mk w.dir ++ "; sustain speed: " ++ String.mk w.speed ++
    "; gust: " ++ (match w.gust with | some g => String.mk g | none => "None") ++
    "; unit: " ++ (if w.unit = ['K','T'] then "knot" else "m/s")

def renderWindVar (w : WindVarCaps) : String :=
  "direction varying between: " ++ String.mk w.lower ++ " and " ++ String.mk w.upper ++ " degree"

/-- Handler `_handle_visibility`: `numerator / denominator` raises
`ZeroDivisionError` when `int(d['den'])` is zero and `OverflowError` when
the quotient reaches the binary64 overflow threshold (both `none`);
otherwise the f-string formats the double `constant + numerator/denominator`,
rendered here as the exact rational that double denotes. -/
def renderVis (v : VisCaps) : Option String :=
  match v.meter with
  | some m => some (String.mk m ++ " meter")
  | none =>
    let constant : Nat := match v.const with | some c => c.toNat - 48 | none => 0
    let numerator : Nat := match v.num with | some ds => natDigits ds | none => 0
    let denominator : Nat := match v.den with | some ds => natDigits ds | none => 1
    if denominator = 0 then none
    else if overflowThreshold ≤ (numerator : ℚ) / (denominator : ℚ) then none
    else
      some (ratRepr (roundDouble ((constant : ℚ) +
        roundDouble ((numerator : ℚ) / (denominator : ℚ)))) ++ " statute mile")

/-- The `translate` dictionary of `_handle_runway` on a prefix capture; the
class `[M|P]` also matches `|`, which is missing from the dictionary
(`KeyError`, hence `none`). -/
def prefStr : Option Char → Option String
  | none => some ""
  | some c => if c = 'M' then some "less than" else if c = 'P' then some "greater than" else none

def trendStr : Option Char → String
  | none => ""
  | some c =>
    if c = 'N' then "static trend"
    else if c = 'D' then "decreasing trend"
    else "increasing trend"

def renderRunway (rc : RunwayCaps) : Option String :=
  match prefStr rc.prefLow, prefStr rc.prefHigh with
  | some pl, some ph =>
    let unitS := if rc.unitFT then "ft" else "meter"
    let trendS := trendStr rc.trend
    if rc.vary then
      some ("runway: " ++ String.mk rc.runway ++ "; visibility: from " ++ pl ++ " " ++
        String.mk rc.low ++ "  to " ++ ph ++ " " ++
        (match rc.high with | some h => String.mk h | none => "None") ++
        "; unit: " ++ unitS ++ "; with " ++ trendS)
    else
      some ("runway: " ++ String.mk rc.runway ++ "; visibility: " ++ pl ++ " " ++
        String.mk rc.low ++ "; unit: " ++ unitS ++ "; with " ++ trendS)
  | _, _ => none

def weatherIntStr : Option Char → String
  | some c => if c = '-' then "light" else "heavy"
  | none => ""

def weatherDescStr : List Char → String
  | ['B','C'] => "patches of"
  | ['B','L'] => "blowing"
  | ['D','R'] => "low drifting"
  | ['F','Z'] => "freezing"
  | ['M','I'] => "shallow"
  | ['P','R'] => "partial"
  | ['S','H'] => "showers"
  | ['T','S'] => "thunderstorm"
  | _ => ""

def weatherPrecStr : List Char → String
  | ['D','Z'] => "drizzle"
  | ['G','R'] => "hail"
  | ['G','S'] => "snow pellets"
  | ['I','C'] => "ice crystals"
  | ['P','L'] => "ice pellets"
  | ['R','A'] => "rain"
  | ['S','G'] => "snow grains"
  | ['S','N'] => "snow"
  | ['U','P'] => "unknown precipitation"
  | _ => ""

def weatherObscStr : List Char → String
  | ['B','R'] => "mist"
  | ['F','G'] => "fog"
  | ['F','U'] => "smoke"
  | ['V','A'] => "volcanic ash"
  | ['D','U'] => "dust"
  | ['S','A'] => "sand"
  | ['H','Z'] => "haze"
  | ['P','Y'] => "spray"
  | _ => ""

def weatherOtherStr : List Char → String
  | ['P','O'] => "san whirls"
  | ['S','Q'] => "squalls"
  | ['F','C'] => "funnel cloud"
  | ['S','S'] => "sandstorm"
  | ['D','S'] => "dust storm"
  | _ => ""

/-- Python chunking `[prec[i:i+2] for i in range(0, len(prec), 2)]`. -/
def chunk2 : List Char → List (List Char)
  | [] => []
  | [a] => [[a]]
  | a :: b :: r => [a, b] :: chunk2 r

def precRender (prec : List Char) : String :=
  (chunk2 prec).foldl (fun acc p => acc ++ weatherPrecStr p ++ ";") ""

def renderWeather (w : WeatherCaps) : String :=
  stripStr (weatherIntStr w.intEnc ++ " " ++
    (match w.desc with | some d => weatherDescStr d | none => "") ++ " " ++
    precRender w.prec ++ " " ++
    (match w.obsc with | some o => weatherObscStr o | none => "") ++ " " ++
    (match w.other with | some o => weatherOtherStr o | none => ""))

def cloudsIndi : List Char → String
  | ['S','K','C'] => "sky clear"
  | ['F','E','W'] => "few"
  | ['S','C','T'] => "scattered"
  | ['B','K','N'] => "broken"
  | ['O','V','C'] => "overcast"
  | ['V','V'] => "vertical visibility"
  | _ => ""

def renderClouds (c : List Char × List Char) : String :=
  cloudsIndi c.1 ++ " " ++ String.mk c.2

def renderTemp (t : TempCaps) : String :=
  let temp : Int := (if t.minusF1 then -1 else 1) * (natDigits t.temp : Int)
  let dew : Int := (if t.minusF2 then -1 else 1) * (natDigits t.dewpoint : Int)
  "temperature: " ++ intRepr temp ++ "; dewpoint: " ++ intRepr dew

def renderAltimeter (a : AltimeterCaps) : String :=
  "sea level pressure: " ++ natRepr (natDigits a.press) ++ "; unit: " ++
    (if a.unitAQ = some 'A' then "inches" else "hPa")

/-! ## Attempts: `text, p = handler(identif, pattern.match(metarStr, pos=pos))`

An attempt packages one grammar-table row the way `decodeMetar` uses it:
no match gives `("", pos)` (the handler's `return "", ""`; the position is
then never read), a match gives the rendering and `d.end()`, and a handler
exception gives `none`. -/

abbrev Attempt := List Char → Nat → Option (String × Nat)

def mkAttempt {γ : Type} (m : List Char → Option (γ × List Char))
    (render : γ → Option String) : Attempt :=
  fun s pos =>
    match m (List.drop pos s) with
    | none => some ("", pos)
    | some (caps, rest) =>
      match render caps with
      | none => none
      | some t => some (t, pos + ((List.drop pos s).length - rest.length))

def attemptFulltime : Attempt := mkAttempt fulltimeMatch (fun c => some (renderFulltime c))

def attemptType : Attempt := mkAttempt typeMatch (fun c => some (renderType c))

def attemptIcao : Attempt := mkAttempt icaoMatch (fun c => some (renderIcao c))

def attemptIssuance : Attempt := mkAttempt issuanceMatch (fun c => some (renderIssuance c))

def attemptWind : Attempt := mkAttempt windMatch (fun c => some (renderWind c))

def attemptWindVar : Attempt := mkAttempt windVarMatch (fun c => some (renderWindVar c))

def attemptVisibility : Attempt := mkAttempt visMatchDec renderVis

def attemptRunway : Attempt := mkAttempt runwayMatch renderRunway

/-- Handler `_handle_weather` additionally returns `"", ""` on a zero-width match
(`d.start() == d.end()`); a wider match whose rendering strips to the empty
string also yields empty text, which the decoder treats as no match. -/
def attemptWeather : Attempt :=
  fun s pos =>
    match weatherMatch (List.drop pos s) with
    | none => some ("", pos)
    | some (caps, rest) =>
      let n := (List.drop pos s).length - rest.length
      if n = 0 then some ("", pos) else some (renderWeather caps, pos + n)

def attemptClouds : Attempt := mkAttempt cloudsMatch (fun c => some (renderClouds c))

def attemptTemp : Attempt := mkAttempt tempMatch (fun c => some (renderTemp c))

def attemptAltimeter : Attempt := mkAttempt altimeterMatch (fun c => some (renderAltimeter c))

/-- Table `self.handlers`: the grammar table, in source order, with the repeat flag. -/
def handlers : List (String × Attempt × Bool) :=
  [("fulltime", attemptFulltime, false),
   ("type", attemptType, false),
   ("icao", attemptIcao, false),
   ("issuancetime", attemptIssuance, false),
   ("wind", attemptWind, false),
   ("variability", attemptWindVar, false),
   ("visibility", attemptVisibility, true),
   ("runway", attemptRunway, true),
   ("weather", attemptWeather, true),
   ("clouds", attemptClouds, true),
   ("temp", attemptTemp, false),
   ("altimeter", attemptAltimeter, true)]

def groupNames : List String :=
  ["fulltime", "type", "icao", "issuancetime", "wind", "variability",
   "visibility", "runway", "weather", "clouds", "temp", "altimeter"]

/-! ## The sequential group decoder (`decodeMetar`) -/

/-- The inner `while True` of `decodeMetar` for one grammar-table row, with
fuel for the unbounded loop: `none` = fuel exhausted (proved unreachable),
`some none` = a handler exception propagated, `some (some (acc, pos))` =
loop left normally with the accumulated `message[identif]` and the cursor. -/
def innerLoop (a : Attempt) (id : String) (rep : Bool) (s : List Char) :
    Nat → Nat → String → Option (Option (String × Nat))
  | 0, _, _ => none
  | fuel + 1, pos, acc =>
    match a s pos with
    | none => some none
    | some (text, p) =>
      if text = "" then some (some (acc, pos))
      else
        let acc2 := acc ++ (id ++ ": " ++ text ++ ";")
        if rep then innerLoop a id rep s fuel p acc2
        else some (some (acc2, p))

/-- The outer `while igroup < ngroup` of `decodeMetar`: walks the grammar
table threading the cursor, collecting `message` (association list in table
order — the Python dict with insertion order) and `errorMsg`. -/
def outerLoop (s : List Char) :
    List (String × Attempt × Bool) → Nat → List (String × String) → String →
    Option (Option (List (String × String) × String))
  | [], _, msg, err => some (some (msg, err))
  | (id, a, rep) :: rest, pos, msg, err =>
    match innerLoop a id rep s (s.length + 1) pos "" with
    | none => none
    | some none => some none
    | some (some (acc, p)) =>
      outerLoop s rest p (msg ++ [(id, acc)])
        (if acc = "" then err ++ (id ++ ":  no text matched;") else err)

/-- Method `decodeMetar(metarStr)`: outer `Option` is fuel exhaustion (unreachable),
inner `Option` is a propagated handler exception. -/
def decodeMetar (s : String) : Option (Option (List (String × String) × String)) :=
  outerLoop s.data handlers 0 [] ""

/-- The `errorMsg` accumulation: one `f"{identif}:  no text matched;"` entry
per group whose `message[identif]` stayed empty, in table order. -/
def errFold (err : String) (msg : List (String × String)) : String :=
  msg.foldl (fun e p => if p.2 = "" then e ++ (p.1 ++ ":  no text matched;") else e) err

def errorsOf (msg : List (String × String)) : String := errFold "" msg

/-- The mutable state of a `metarProcessing` object: the open stream position
and `curRecord`.  `decodeMetar` reads only the grammar table fixed at
construction and touches neither field. -/
structure MPState where
  stream : List String
  curRecord : String

/-- Method call view of `decodeMetar`: object state in, object state out. -/
def decodeMetarM (st : MPState) (s : String) :
    MPState × Option (Option (List (String × String) × String)) :=
  (st, decodeMetar s)

/-! ## The record segmenter (`getNextRecord` and its three line tests)

The line stream is a `List String` of the lines `readline` would return
(each line normally ends in a newline); the empty list is end-of-file, where
`readline` returns `""`. -/

/-- Pattern `startProg = \s*\d{12}` under `re.match`: leading whitespace then twelve
digits anywhere at the start — nothing anchors the end, so further digits
are allowed. -/
def isRecordStart (line : String) : Bool :=
  (takeK pDigit 12 (takeRun pSpace line.data).2).isSome

/-- Boolean semantics of `endProg = .*=\s*$` under `re.match`: some `=` whose
prefix contains no newline and whose suffix is all whitespace (`$` also
matches just before a final newline, which `\s*` covers). -/
def endScan : List Char → Bool
  | [] => false
  | c :: rest => (c = '=' && rest.all pSpace) || (decide (c ≠ '\n') && endScan rest)

def isRecordEnd (line : String) : Bool := endScan line.data

/-- One position of `typeProg = \sTAF\s` under `re.search`. -/
def tafHere : List Char → Bool
  | c :: 'T' :: 'A' :: 'F' :: d :: _ => pSpace c && pSpace d
  | _ => false

def tafScan : List Char → Bool
  | [] => false
  | c :: rest => tafHere (c :: rest) || tafScan rest

def isTAFRecord (line : String) : Bool := tafScan line.data

/-- The first `while True` of `getNextRecord` (seeking a start line):
`none` models `return ""` — reached at end-of-stream (`line == ""`) and on a
TAF line. -/
def seekLoop : List String → Option (String × List String)
  | [] => none
  | l :: ls =>
    if isRecordStart l then some (l, ls)
    else if l = "" || isTAFRecord l then none
    else seekLoop ls

/-- The second `while True` of `getNextRecord` (accumulating up to the `=`
terminator or end-of-stream). -/
def accumLoop : List String → String → String → String
  | rest, line, acc =>
    let acc2 := acc ++ line
    if isRecordEnd line || line = "" then acc2
    else
      match rest with
      | [] => acc2
      | l :: ls => accumLoop ls l acc2

/-- Python `rstrip('=\n ')`. -/
def stripEnd (s : String) : String :=
  String.mk ((s.data.reverse.dropWhile (fun c => c = '=' || c = '\n' || c = ' ')).reverse)

/-- Method `getNextRecord(self)`: the next report carved out of the line stream, or
`""` (the end-of-stream marker). -/
def getNextRecord (stream : List String) : String :=
  match seekLoop stream with
  | none => ""
  | some (line, rest) => stripEnd (accumLoop rest line "")

/-! ## The VMC minima classifier (`vmcMinima`) -/

/-- One position of `CAVOK_RE = \sCAVOK\s` under `re.search`. -/
def cavokHere : List Char → Bool
  | c :: 'C' :: 'A' :: 'V' :: 'O' :: 'K' :: d :: _ => pSpace c && pSpace d
  | _ => false

def searchCavok : List Char → Bool
  | [] => false
  | c :: rest => cavokHere (c :: rest) || searchCavok rest

/-- One anchored match of `CEILING_RE = \s*(BKN|OVC)(\d{2,4})\s*`: the height
digits and the rest after the match (used by `findall` to continue). -/
def ceilingMatch (l : List Char) : Option (List Char × List Char) :=
  let r0 := (takeRun pSpace l).2
  let covRes : Option (List Char) :=
    match litP ['B','K','N'] r0 with
    | some r => some r
    | none => litP ['O','V','C'] r0
  match covRes with
  | none => none
  | some r1 =>
  match takeBetween pDigit 2 4 r1 with
  | none => none
  | some (height, r2) => some (height, (takeRun pSpace r2).2)

/-- Scan `CEILING_RE.findall(metarStr)` (heights only, which is all the caller
uses), with fuel for the scan: on a match continue after it, otherwise
advance one character.  Every step consumes at least one character (the
cover literal is mandatory), so fuel `l.length + 1` is never exhausted. -/
def ceilingScanF : Nat → List Char → List (List Char)
  | 0, _ => []
  | fuel + 1, l =>
    match ceilingMatch l with
    | some (h, restAfter) => h :: ceilingScanF fuel restAfter
    | none =>
      match l with
      | [] => []
      | _ :: rest => ceilingScanF fuel rest

def ceilingHeights (l : List Char) : List Nat :=
  (ceilingScanF (l.length + 1) l).map natDigits

structure VisCapsVMC where
  const : Option Char
  num : Option (List Char)
  den : Option (List Char)
  meter : Option (List Char)
deriving DecidableEq

/-- One anchored match of the classifier's own
`VISIBILITY_RE = \s((?P<const>[\d]\s)?(?P<num>[\d]+)(/(?P<den>[\d]+))?SM)\s|\s(?P<meter>([\d][\d][05][0])|([9]{4}))\s`:
both alternatives are delimited by single `\s` on each side.  Only the
captures are needed (`search` is used once).  The statute-mile parse of a
given start position is unique (every backtracking retry fails on a
disjoint character), so the trailing `\s` test commits. -/
def visAlt1 (l : List Char) : Option VisCapsVMC :=
  match l with
  | c :: rest =>
    if pSpace c then
      match smCore rest with
      | some ((cst, num, den), r) =>
        match r with
        | d :: _ =>
          if pSpace d then some { const := cst, num := some num, den := den, meter := none }
          else none
        | [] => none
      | none => none
    else none
  | [] => none

def visAlt2 (l : List Char) : Option VisCapsVMC :=
  match l with
  | c :: rest =>
    if pSpace c then
      match meterMatch rest with
      | some (m, r) =>
        match r with
        | d :: _ =>
          if pSpace d then some { const := none, num := none, den := none, meter := some m }
          else none
        | [] => none
      | none => none
    else none
  | [] => none

def visMatchVMC (l : List Char) : Option VisCapsVMC :=
  match visAlt1 l with
  | some x => some x
  | none => visAlt2 l

/-- Search `VISIBILITY_RE.search(metarStr)`: first position with a match. -/
def visSearchVMC : List Char → Option VisCapsVMC
  | [] => none
  | c :: rest =>
    match visMatchVMC (c :: rest) with
    | some caps => some caps
    | none => visSearchVMC rest

/-- Method `vmcMinima(metarStr)`: `none` is a raised exception — the
`ZeroDivisionError` of `numerator / denominator` with `int(d['den']) == 0`,
or the `OverflowError` of that division when the quotient reaches the
binary64 overflow threshold.  The statute-mile comparison is Python's
double-precision comparison: `constant + numerator/denominator` is the
correctly rounded double of the quotient, added (again correctly rounded)
to the exactly representable constant. -/
def vmcMinima (s : String) : Option Bool :=
  let l := s.data
  if searchCavok l then some true
  else
    let ceiling : Bool :=
      match ceilingHeights l with
      | [] => true
      | h :: t => decide (15 ≤ List.foldl Nat.min h t)
    match visSearchVMC l with
    | none => some (ceiling && false)
    | some caps =>
      let constant : Nat := match caps.const with | some c => c.toNat - 48 | none => 0
      let numerator : Nat := match caps.num with | some ds => natDigits ds | none => 0
      let denominator : Nat := match caps.den with | some ds => natDigits ds | none => 1
      let meter : Nat := match caps.meter with | some ds => natDigits ds | none => 0
      if meter ≠ 0 then some (ceiling && decide (5000 ≤ meter))
      else if denominator = 0 then none
      else if overflowThreshold ≤ (numerator : ℚ) / (denominator : ℚ) then none
      else
        some (ceiling && decide ((3 : ℚ) ≤
          roundDouble ((constant : ℚ) + roundDouble ((numerator : ℚ) / (denominator : ℚ)))))

/-! ### The classifier's two checks, stated as the specification words them
(used to compare the monolithic `vmcMinima` against the documented rule). -/

/-- Ceiling check as specified: satisfied by default with no broken/overcast
group, otherwise the minimum reported height must be at least 15. -/
def ceilingSpec (l : List Char) : Bool :=
  match ceilingHeights l with
  | [] => true
  | h :: t => decide (15 ≤ List.foldl Nat.min h t)

/-- Visibility check as the amended claim words it: a found meter-form group
needs value ≥ 5000, a found statute-mile-form group needs the
double-precision value of `constant + numerator/denominator`, as the
program computes it, to be at least 3, and no group found is not
satisfied. -/
def visibilitySpec (l : List Char) : Bool :=
  match visSearchVMC l with
  | none => false
  | some caps =>
    match caps.meter with
    | some ds => decide (5000 ≤ natDigits ds)
    | none =>
      let constant : Nat := match caps.const with | some c => c.toNat - 48 | none => 0
      let numerator : Nat := match caps.num with | some ds => natDigits ds | none => 0
      let denominator : Nat := match caps.den with | some ds => natDigits ds | none => 1
      decide ((3 : ℚ) ≤
        roundDouble ((constant : ℚ) + roundDouble ((numerator : ℚ) / (denominator : ℚ))))

/-- The found visibility group raises neither exception: when the
statute-mile branch is evaluated, its denominator is non-zero and its
quotient is below the binary64 overflow threshold — exactly the inputs on
which `vmcMinima` does not raise. -/
def visOk (l : List Char) : Bool :=
  match visSearchVMC l with
  | none => true
  | some caps =>
    match caps.meter with
    | some _ => true
    | none =>
      let numerator : Nat := match caps.num with | some ds => natDigits ds | none => 0
      let denominator : Nat := match caps.den with | some ds => natDigits ds | none => 1
      decide (denominator ≠ 0) &&
        decide ((numerator : ℚ) / (denominator : ℚ) < overflowThreshold)

/-! ## Attempt-level invariants -/

/-- A successful attempt never moves the cursor backwards. -/
def AttMono (a : Attempt) : Prop :=
  ∀ s pos t p, a s pos = some (t, p) → pos ≤ p

/-- A successful attempt never moves the cursor past the end of the input. -/
def AttBounded (a : Attempt) : Prop :=
  ∀ s pos t p, a s pos = some (t, p) → pos ≤ s.length → p ≤ s.length

/-- An attempt that produced text strictly advances the cursor. -/
def AttStrict (a : Attempt) : Prop :=
  ∀ s pos t p, a s pos = some (t, p) → t ≠ "" → pos < p

theorem mkAttempt_mono {γ : Type} (m : List Char → Option (γ × List Char))
    (render : γ → Option String) : AttMono (mkAttempt m render) := by
  intro s pos t p h
  simp only [mkAttempt] at h
  split at h
  · simp only [Option.some.injEq, Prod.mk.injEq] at h
    omega
  · split at h
    · simp at h
    · simp only [Option.some.injEq, Prod.mk.injEq] at h
      omega

theorem mkAttempt_bounded {γ : Type} (m : List Char → Option (γ × List Char))
    (render : γ → Option String) : AttBounded (mkAttempt m render) := by
  intro s pos t p h hpos
  simp only [mkAttempt] at h
  split at h
  · simp only [Option.some.injEq, Prod.mk.injEq] at h
    omega
  · split at h
    · simp at h
    · simp only [Option.some.injEq, Prod.mk.injEq] at h
      have hd : (List.drop pos s).length = s.length - pos := by
        simp [List.length_drop]
      omega

theorem mkAttempt_strict {γ : Type} (m : List Char → Option (γ × List Char))
    (render : γ → Option String)
    (hm : ∀ l c r, m l = some (c, r) → r.length < l.length) :
    AttStrict (mkAttempt m render) := by
  intro s pos t p h ht
  simp only [mkAttempt] at h
  split at h
  · simp only [Option.some.injEq, Prod.mk.injEq] at h
    exact absurd h.1.symm ht
  · rename_i caps rest hmm
    split at h
    · simp at h
    · simp only [Option.some.injEq, Prod.mk.injEq] at h
      have := hm _ _ _ hmm
      omega

theorem attemptWeather_mono : AttMono attemptWeather := by
  intro s pos t p h
  simp only [attemptWeather] at h
  split at h
  · simp only [Option.some.injEq, Prod.mk.injEq] at h
    omega
  · split at h
    · simp only [Option.some.injEq, Prod.mk.injEq] at h
      omega
    · simp only [Option.some.injEq, Prod.mk.injEq] at h
      omega

theorem attemptWeather_bounded : AttBounded attemptWeather := by
  intro s pos t p h hpos
  simp only [attemptWeather] at h
  split at h
  · simp only [Option.some.injEq, Prod.mk.injEq] at h
    omega
  · split at h
    · simp only [Option.some.injEq, Prod.mk.injEq] at h
      omega
    · simp only [Option.some.injEq, Prod.mk.injEq] at h
      have hd : (List.drop pos s).length = s.length - pos := by
        simp [List.length_drop]
      omega

theorem attemptWeather_strict : AttStrict attemptWeather := by
  intro s pos t p h ht
  simp only [attemptWeather] at h
  split at h
  · simp only [Option.some.injEq, Prod.mk.injEq] at h
    exact absurd h.1.symm ht
  · split at h
    · simp only [Option.some.injEq, Prod.mk.injEq] at h
      exact absurd h.1.symm ht
    · rename_i hn
      simp only [Option.some.injEq, Prod.mk.injEq] at h
      omega


/-! ## Strict consumption of the repeatable groups' matchers -/

theorem denOpt_rest_le (l : List Char) : (denOpt l).2.length ≤ l.length := by
  unfold denOpt
  split
  · rename_i r
    dsimp only
    split
    · simp
    · have := takeRun_len pDigit r
      simp only [List.length_cons]
      omega
  · simp

theorem meterMatch_len (l m r : List Char) (h : meterMatch l = some (m, r)) :
    r.length + 4 = l.length := by
  unfold meterMatch at h
  split at h
  · split at h
    · simp only [Option.some.injEq, Prod.mk.injEq] at h
      obtain ⟨_, h2⟩ := h
      subst h2
      simp
    · split at h
      · simp only [Option.some.injEq, Prod.mk.injEq] at h
        obtain ⟨_, h2⟩ := h
        subst h2
        simp
      · simp at h
  · simp at h

theorem smTail_rest_lt (l num : List Char) (den : Option (List Char)) (r : List Char)
    (h : smTail l = some ((num, den), r)) : r.length < l.length := by
  simp only [smTail] at h
  split at h
  · simp at h
  · rename_i hne
    have hnum := takeRun_len pDigit l
    have hnumpos : 1 ≤ (takeRun pDigit l).1.length := by
      cases hx : (takeRun pDigit l).1 with
      | nil => rw [hx] at hne; simp at hne
      | cons a b => simp [hx]
    cases hsm : litP ['S','M'] (denOpt (takeRun pDigit l).2).2 with
    | none => rw [hsm] at h; simp at h
    | some r3 =>
      rw [hsm] at h
      simp only [Option.some.injEq, Prod.mk.injEq] at h
      obtain ⟨_, hr⟩ := h
      subst hr
      have hlen := litP_len _ _ _ hsm
      have hden := denOpt_rest_le (takeRun pDigit l).2
      simp only [List.length_cons, List.length_nil] at hlen
      omega

theorem smCore_rest_lt (l : List Char) (c : Option Char) (num : List Char)
    (den : Option (List Char)) (r : List Char)
    (h : smCore l = some ((c, num, den), r)) : r.length < l.length := by
  have fallback : ∀ (l' : List Char),
      ((smTail l').map (fun x => ((none, x.1.1, x.1.2), x.2)) =
        some ((c, num, den), r)) → r.length < l'.length := by
    intro l' hf
    cases hx : smTail l' with
    | none => rw [hx] at hf; simp [Option.map] at hf
    | some x =>
      rw [hx] at hf
      obtain ⟨⟨xn, xd⟩, xr⟩ := x
      simp only [Option.map, Option.some.injEq, Prod.mk.injEq] at hf
      obtain ⟨_, h4⟩ := hf
      subst h4
      exact smTail_rest_lt l' xn xd xr hx
  unfold smCore at h
  split at h
  · rename_i a sp rest
    split at h
    · cases hx : smTail rest with
      | none =>
        rw [hx] at h
        exact Nat.lt_of_lt_of_le (fallback _ h) (le_refl _)
      | some x =>
        rw [hx] at h
        obtain ⟨⟨xn, xd⟩, xr⟩ := x
        simp only [Option.some.injEq, Prod.mk.injEq] at h
        obtain ⟨_, h4⟩ := h
        subst h4
        have := smTail_rest_lt rest xn xd xr hx
        simp only [List.length_cons]
        omega
    · exact fallback _ h
  · exact fallback _ h

theorem visMatchDec_rest_lt (l : List Char) (v : VisCaps) (r : List Char)
    (h : visMatchDec l = some (v, r)) : r.length < l.length := by
  simp only [visMatchDec] at h
  have hsp := takeRun_rest_le pSpace l
  cases hx : smCore (takeRun pSpace l).2 with
  | some x =>
    rw [hx] at h
    obtain ⟨⟨xc, xn, xd⟩, xr⟩ := x
    simp only [Option.some.injEq, Prod.mk.injEq] at h
    obtain ⟨_, h4⟩ := h
    subst h4
    have := smCore_rest_lt _ xc xn xd xr hx
    omega
  | none =>
    rw [hx] at h
    cases hm : meterMatch l with
    | none => rw [hm] at h; simp at h
    | some mr =>
      rw [hm] at h
      obtain ⟨m, r1⟩ := mr
      simp only [Option.some.injEq, Prod.mk.injEq] at h
      obtain ⟨_, h4⟩ := h
      subst h4
      have := meterMatch_len l m r1 hm
      have := takeRun_rest_le pSpace r1
      omega

theorem coverTry_rest_lt (l cov r : List Char) (h : coverTry l = some (cov, r)) :
    r.length < l.length := by
  unfold coverTry at h
  split at h
  · rename_i r1 h1
    simp only [Option.some.injEq, Prod.mk.injEq] at h
    obtain ⟨_, hr⟩ := h
    subst hr
    have := litP_len _ _ _ h1
    simp only [List.length_cons, List.length_nil] at this
    omega
  · split at h
    · rename_i r1 h1
      simp only [Option.some.injEq, Prod.mk.injEq] at h
      obtain ⟨_, hr⟩ := h
      subst hr
      have := litP_len _ _ _ h1
      simp only [List.length_cons, List.length_nil] at this
      omega
    · split at h
      · rename_i r1 h1
        simp only [Option.some.injEq, Prod.mk.injEq] at h
        obtain ⟨_, hr⟩ := h
        subst hr
        have := litP_len _ _ _ h1
        simp only [List.length_cons, List.length_nil] at this
        omega
      · split at h
        · rename_i r1 h1
          simp only [Option.some.injEq, Prod.mk.injEq] at h
          obtain ⟨_, hr⟩ := h
          subst hr
          have := litP_len _ _ _ h1
          simp only [List.length_cons, List.length_nil] at this
          omega
        · split at h
          · rename_i r1 h1
            simp only [Option.some.injEq, Prod.mk.injEq] at h
            obtain ⟨_, hr⟩ := h
            subst hr
            have := litP_len _ _ _ h1
            simp only [List.length_cons, List.length_nil] at this
            omega
          · split at h
            · rename_i r1 h1
              simp only [Option.some.injEq, Prod.mk.injEq] at h
              obtain ⟨_, hr⟩ := h
              subst hr
              have := litP_len _ _ _ h1
              simp only [List.length_cons, List.length_nil] at this
              omega
            · simp at h

theorem cloudsMatch_rest_lt (l : List Char) (c : List Char × List Char) (r : List Char)
    (h : cloudsMatch l = some (c, r)) : r.length < l.length := by
  simp only [cloudsMatch] at h
  have hsp := takeRun_rest_le pSpace l
  cases hx : coverTry (takeRun pSpace l).2 with
  | none => rw [hx] at h; simp at h
  | some x =>
    rw [hx] at h
    obtain ⟨cov, r1⟩ := x
    dsimp only at h
    cases hy : takeBetween pDigit 2 4 r1 with
    | none => rw [hy] at h; simp at h
    | some y =>
      rw [hy] at h
      obtain ⟨hei, r2⟩ := y
      simp only [Option.some.injEq, Prod.mk.injEq] at h
      obtain ⟨_, hr⟩ := h
      subst hr
      have h1 := coverTry_rest_lt _ _ _ hx
      have h2 := (takeBetween_len _ _ _ _ _ _ hy).1
      have h3 := takeRun_rest_le pSpace r2
      omega

theorem altimeterMatch_rest_lt (l : List Char) (a : AltimeterCaps) (r : List Char)
    (h : altimeterMatch l = some (a, r)) : r.length < l.length := by
  simp only [altimeterMatch] at h
  have hsp := takeRun_rest_le pSpace l
  have hopt := optChar_len (fun c => c = 'A' || c = 'Q') (takeRun pSpace l).2
  cases hy : takeBetween pDigit 3 4 (optChar (fun c => c = 'A' || c = 'Q') (takeRun pSpace l).2).2 with
  | none => rw [hy] at h; simp at h
  | some y =>
    rw [hy] at h
    obtain ⟨press, r1⟩ := y
    simp only [Option.some.injEq, Prod.mk.injEq] at h
    obtain ⟨_, hr⟩ := h
    subst hr
    obtain ⟨hc, hlo⟩ := takeBetween_len _ _ _ _ _ _ hy
    have h3 := takeRun_rest_le pSpace r1
    omega

theorem varyTry_rest_le (l : List Char) : (varyTry l).2.length ≤ l.length := by
  unfold varyTry
  split
  · rename_i r4
    dsimp only
    split
    · rename_i high r5 hk
      obtain ⟨_, hlen⟩ := takeK_len _ _ _ _ _ hk
      have := optChar_len pPrefMP r4
      dsimp only
      simp only [List.length_cons]
      omega
    · simp
  · simp

theorem ftTry_rest_le (l : List Char) : (ftTry l).2.length ≤ l.length := by
  unfold ftTry
  split
  · rename_i r hf
    have := litP_len _ _ _ hf
    dsimp only
    simp only [List.length_cons, List.length_nil] at this
    omega
  · dsimp only
    omega

theorem runwayMatch_rest_lt (l : List Char) (rc : RunwayCaps) (r : List Char)
    (h : runwayMatch l = some (rc, r)) : r.length < l.length := by
  simp only [runwayMatch] at h
  have hsp := takeRun_rest_le pSpace l
  cases hR : litP ['R'] (takeRun pSpace l).2 with
  | none => rw [hR] at h; simp at h
  | some r1 =>
    rw [hR] at h
    dsimp only at h
    have hRlen := litP_len _ _ _ hR
    simp only [List.length_cons, List.length_nil] at hRlen
    split at h
    · simp at h
    · have hdig := takeRun_rest_le pDigit r1
      have hlet := optChar_len pRunwayLetter (takeRun pDigit r1).2
      cases hsl : litP ['/'] (optChar pRunwayLetter (takeRun pDigit r1).2).2 with
      | none => rw [hsl] at h; simp at h
      | some r2 =>
        rw [hsl] at h
        dsimp only at h
        have hsll := litP_len _ _ _ hsl
        simp only [List.length_cons, List.length_nil] at hsll
        have hpl := optChar_len pPrefMP r2
        cases hlow : takeK pDigit 4 (optChar pPrefMP r2).2 with
        | none => rw [hlow] at h; simp at h
        | some lw =>
          rw [hlow] at h
          obtain ⟨low, r3⟩ := lw
          dsimp only at h
          obtain ⟨_, hlowlen⟩ := takeK_len _ _ _ _ _ hlow
          simp only [Option.some.injEq, Prod.mk.injEq] at h
          obtain ⟨_, hr⟩ := h
          subst hr
          have hv := varyTry_rest_le r3
          have hf := ftTry_rest_le (varyTry r3).2
          have hs2 := optChar_len (fun c => c = '/') (ftTry (varyTry r3).2).2
          have ht2 := optChar_len pTrend (optChar (fun c => c = '/') (ftTry (varyTry r3).2).2).2
          have hr2 := takeRun_rest_le pSpace
            (optChar pTrend (optChar (fun c => c = '/') (ftTry (varyTry r3).2).2).2).2
          omega

/-! ## Loop-level lemmas -/

/-- Per-entry invariants of the grammar table: every attempt is monotone and
bounded, and every repeatable attempt strictly consumes when it produces
text. -/
theorem handlers_props :
    ∀ e ∈ handlers, AttMono e.2.1 ∧ AttBounded e.2.1 ∧ (e.2.2 = true → AttStrict e.2.1) := by
  intro e he
  simp only [handlers, List.mem_cons, List.not_mem_nil, or_false] at he
  rcases he with h | h | h | h | h | h | h | h | h | h | h | h <;> subst h
  · exact ⟨mkAttempt_mono fulltimeMatch (fun c => some (renderFulltime c)),
      mkAttempt_bounded fulltimeMatch (fun c => some (renderFulltime c)),
      fun hx => Bool.noConfusion hx⟩
  · exact ⟨mkAttempt_mono typeMatch (fun c => some (renderType c)),
      mkAttempt_bounded typeMatch (fun c => some (renderType c)),
      fun hx => Bool.noConfusion hx⟩
  · exact ⟨mkAttempt_mono icaoMatch (fun c => some (renderIcao c)),
      mkAttempt_bounded icaoMatch (fun c => some (renderIcao c)),
      fun hx => Bool.noConfusion hx⟩
  · exact ⟨mkAttempt_mono issuanceMatch (fun c => some (renderIssuance c)),
      mkAttempt_bounded issuanceMatch (fun c => some (renderIssuance c)),
      fun hx => Bool.noConfusion hx⟩
  · exact ⟨mkAttempt_mono windMatch (fun c => some (renderWind c)),
      mkAttempt_bounded windMatch (fun c => some (renderWind c)),
      fun hx => Bool.noConfusion hx⟩
  · exact ⟨mkAttempt_mono windVarMatch (fun c => some (renderWindVar c)),
      mkAttempt_bounded windVarMatch (fun c => some (renderWindVar c)),
      fun hx => Bool.noConfusion hx⟩
  · exact ⟨mkAttempt_mono visMatchDec renderVis,
      mkAttempt_bounded visMatchDec renderVis,
      fun _ => mkAttempt_strict visMatchDec renderVis
        (fun l c r hm => visMatchDec_rest_lt l c r hm)⟩
  · exact ⟨mkAttempt_mono runwayMatch renderRunway,
      mkAttempt_bounded runwayMatch renderRunway,
      fun _ => mkAttempt_strict runwayMatch renderRunway
        (fun l c r hm => runwayMatch_rest_lt l c r hm)⟩
  · exact ⟨attemptWeather_mono, attemptWeather_bounded, fun _ => attemptWeather_strict⟩
  · exact ⟨mkAttempt_mono cloudsMatch (fun c => some (renderClouds c)),
      mkAttempt_bounded cloudsMatch (fun c => some (renderClouds c)),
      fun _ => mkAttempt_strict cloudsMatch (fun c => some (renderClouds c))
        (fun l c r hm => cloudsMatch_rest_lt l c r hm)⟩
  · exact ⟨mkAttempt_mono tempMatch (fun c => some (renderTemp c)),
      mkAttempt_bounded tempMatch (fun c => some (renderTemp c)),
      fun hx => Bool.noConfusion hx⟩
  · exact ⟨mkAttempt_mono altimeterMatch (fun c => some (renderAltimeter c)),
      mkAttempt_bounded altimeterMatch (fun c => some (renderAltimeter c)),
      fun _ => mkAttempt_strict altimeterMatch (fun c => some (renderAltimeter c))
        (fun l c r hm => altimeterMatch_rest_lt l c r hm)⟩

/-- With enough fuel, the inner loop terminates: it either propagates an
exception or returns normally with an in-range cursor. -/
theorem innerLoop_result (a : Attempt) (id : String) (rep : Bool) (s : List Char)
    (hB : AttBounded a) (hS : rep = true → AttStrict a) :
    ∀ (fuel pos : Nat) (acc : String), pos ≤ s.length → s.length + 1 - pos ≤ fuel →
      innerLoop a id rep s fuel pos acc = some none ∨
      ∃ x p, innerLoop a id rep s fuel pos acc = some (some (x, p)) ∧ p ≤ s.length := by
  intro fuel
  induction fuel with
  | zero => intro pos acc h1 h2; omega
  | succ f ih =>
    intro pos acc h1 h2
    simp only [innerLoop]
    cases ha : a s pos with
    | none => left; rfl
    | some tp =>
      obtain ⟨t, p⟩ := tp
      by_cases ht : t = ""
      · right
        refine ⟨acc, pos, ?_, h1⟩
        simp [ht]
      · have hple : p ≤ s.length := hB s pos t p ha h1
        simp only [if_neg ht]
        cases rep with
        | false =>
          right
          exact ⟨acc ++ (id ++ ": " ++ t ++ ";"), p, by simp, hple⟩
        | true =>
          have hlt : pos < p := hS rfl s pos t p ha ht
          have := ih p (acc ++ (id ++ ": " ++ t ++ ";")) hple (by omega)
          simpa using this

/-- The inner loop never moves the cursor backwards. -/
theorem innerLoop_mono (a : Attempt) (id : String) (rep : Bool) (s : List Char)
    (hM : AttMono a) :
    ∀ (fuel pos : Nat) (acc x : String) (p : Nat),
      innerLoop a id rep s fuel pos acc = some (some (x, p)) → pos ≤ p := by
  intro fuel
  induction fuel with
  | zero => intro pos acc x p h; simp [innerLoop] at h
  | succ f ih =>
    intro pos acc x p h
    simp only [innerLoop] at h
    cases ha : a s pos with
    | none => rw [ha] at h; simp at h
    | some tp =>
      obtain ⟨t, q⟩ := tp
      rw [ha] at h
      by_cases ht : t = ""
      · simp [ht] at h
        omega
      · have hq := hM s pos t q ha
        simp only [if_neg ht] at h
        cases rep with
        | false =>
          simp at h
          omega
        | true =>
          have := ih q (acc ++ (id ++ ": " ++ t ++ ";")) x p h
          omega

/-- The whole grammar walk, generically in a suffix of the table: either an
exception propagates, or every entry contributes its message slot in table
order and the error string collects exactly the empty slots. -/
theorem outerLoop_shape (s : List Char) :
    ∀ (entries : List (String × Attempt × Bool)),
      (∀ e ∈ entries, AttBounded e.2.1 ∧ (e.2.2 = true → AttStrict e.2.1)) →
      ∀ (pos : Nat) (msg : List (String × String)) (err : String), pos ≤ s.length →
        outerLoop s entries pos msg err = some none ∨
        ∃ msg2, outerLoop s entries pos msg err = some (some (msg ++ msg2, errFold err msg2)) ∧
          msg2.map Prod.fst = entries.map Prod.fst := by
  intro entries
  induction entries with
  | nil =>
    intro _ pos msg err _
    right
    exact ⟨[], by simp [outerLoop, errFold], rfl⟩
  | cons e rest ih =>
    intro hprops pos msg err hpos
    obtain ⟨id, a, rep⟩ := e
    have hB := (hprops _ (List.mem_cons_self _ _)).1
    have hS := (hprops _ (List.mem_cons_self _ _)).2
    simp only [outerLoop]
    rcases innerLoop_result a id rep s hB hS (s.length + 1) pos "" hpos (by omega) with
      hin | ⟨x, p, hin, hple⟩
    · rw [hin]
      left
      rfl
    · rw [hin]
      dsimp only
      rcases ih (fun e' he' => hprops e' (List.mem_cons_of_mem _ he')) p (msg ++ [(id, x)])
          (if x = "" then err ++ (id ++ ":  no text matched;") else err) hple with
        h2 | ⟨msg2, h2, hmap⟩
      · left
        exact h2
      · right
        refine ⟨(id, x) :: msg2, ?_, by simp [hmap]⟩
        rw [h2]
        have hmsg : msg ++ [(id, x)] ++ msg2 = msg ++ ((id, x) :: msg2) := by
          simp
        have herr : errFold (if x = "" then err ++ (id ++ ":  no text matched;") else err) msg2 =
            errFold err ((id, x) :: msg2) := by
          simp [errFold]
        rw [hmsg, herr]

/-- Shape of `decodeMetar` on any report: either the visibility/runway exception, or
the full decode with all twelve group slots in table order and the complete
error list. -/
theorem decode_shape (s : String) :
    decodeMetar s = some none ∨
    ∃ msg err, decodeMetar s = some (some (msg, err)) ∧
      msg.map Prod.fst = groupNames ∧ err = errorsOf msg := by
  have hprops : ∀ e ∈ handlers, AttBounded e.2.1 ∧ (e.2.2 = true → AttStrict e.2.1) :=
    fun e he => ⟨(handlers_props e he).2.1, (handlers_props e he).2.2⟩
  rcases outerLoop_shape (String.data s) handlers hprops 0 [] "" (by omega) with
    h | ⟨msg2, h, hmap⟩
  · left
    exact h
  · right
    refine ⟨msg2, errFold "" msg2, ?_, ?_, rfl⟩
    · simpa [decodeMetar] using h
    · rw [hmap]
      rfl


/-! ## Segmenter lemmas -/

theorem takeK_isSome_iff (p : Char → Bool) :
    ∀ (k : Nat) (l : List Char), (takeK p k l).isSome = true ↔ k ≤ (takeRun p l).1.length := by
  intro k
  induction k with
  | zero => intro l; simp [takeK]
  | succ n ih =>
    intro l
    cases l with
    | nil => simp [takeK, takeRun]
    | cons c r =>
      simp only [takeK, takeRun]
      by_cases hc : p c
      · simp only [if_pos hc]
        have hmap : (Option.map (fun t => (c :: t.1, t.2)) (takeK p n r)).isSome =
            (takeK p n r).isSome := by
          cases takeK p n r <;> rfl
        rw [hmap, ih r]
        simp only [List.length_cons]
        omega
      · simp [hc]

/-- Lines that are neither start lines, nor empty, nor TAF lines are passed
over by the seeking loop. -/
theorem seekLoop_skips (pre rest : List String)
    (hpre : ∀ x ∈ pre, isRecordStart x = false ∧ x ≠ "" ∧ isTAFRecord x = false) :
    seekLoop (pre ++ rest) = seekLoop rest := by
  induction pre with
  | nil => rfl
  | cons x xs ih =>
    have hx := hpre x (by simp)
    simp only [List.cons_append, seekLoop, hx.1, Bool.false_eq_true, if_false]
    rw [if_neg (by simp [hx.2.1, hx.2.2])]
    exact ih (fun y hy => hpre y (by simp [hy]))

/-! ## VMC lemmas -/

theorem searchCavok_here (l : List Char) (h : cavokHere l = true) : searchCavok l = true := by
  cases l with
  | nil => simp [cavokHere] at h
  | cons c r => simp [searchCavok, h]

theorem searchCavok_append (a b : List Char) (h : searchCavok b = true) :
    searchCavok (a ++ b) = true := by
  induction a with
  | nil => simpa using h
  | cons x xs ih => simp [searchCavok, ih]

theorem roundDouble_zero : roundDouble 0 = 0 := by
  simp [roundDouble]

theorem overflowThreshold_pos : 0 < overflowThreshold := by
  have h : (0 : ℕ) < 2 ^ 1024 - 2 ^ 970 :=
    Nat.sub_pos_of_lt (Nat.pow_lt_pow_right one_lt_two (by omega))
  unfold overflowThreshold
  exact_mod_cast h

theorem visAlt1_meter_none (l : List Char) (caps : VisCapsVMC)
    (h : visAlt1 l = some caps) : caps.meter = none := by
  cases l with
  | nil => simp [visAlt1] at h
  | cons c rest =>
    simp only [visAlt1] at h
    split at h
    · cases hsc : smCore rest with
      | none =>
        rw [hsc] at h
        simp at h
      | some y =>
        rw [hsc] at h
        obtain ⟨⟨yc, yn, yd⟩, yr⟩ := y
        dsimp only at h
        cases yr with
        | nil => simp at h
        | cons d dr =>
          dsimp only at h
          by_cases hd : pSpace d = true
          · rw [if_pos hd] at h
            simp only [Option.some.injEq] at h
            subst h
            rfl
          · rw [if_neg hd] at h
            simp at h
    · simp at h

theorem visAlt2_sm_none (l : List Char) (caps : VisCapsVMC)
    (h : visAlt2 l = some caps) :
    caps.const = none ∧ caps.num = none ∧ caps.den = none := by
  cases l with
  | nil => simp [visAlt2] at h
  | cons c rest =>
    simp only [visAlt2] at h
    split at h
    · cases hmm : meterMatch rest with
      | none =>
        rw [hmm] at h
        simp at h
      | some y =>
        rw [hmm] at h
        obtain ⟨m, r⟩ := y
        dsimp only at h
        cases r with
        | nil => simp at h
        | cons d dr =>
          dsimp only at h
          by_cases hd : pSpace d = true
          · rw [if_pos hd] at h
            simp only [Option.some.injEq] at h
            subst h
            exact ⟨rfl, rfl, rfl⟩
          · rw [if_neg hd] at h
            simp at h
    · simp at h

/-- The two alternatives of the classifier's visibility pattern populate
disjoint capture groups. -/
theorem visMatchVMC_invariant (l : List Char) (caps : VisCapsVMC)
    (h : visMatchVMC l = some caps) :
    caps.meter = none ∨ (caps.const = none ∧ caps.num = none ∧ caps.den = none) := by
  unfold visMatchVMC at h
  cases h1 : visAlt1 l with
  | some x =>
    rw [h1] at h
    simp only [Option.some.injEq] at h
    subst h
    exact Or.inl (visAlt1_meter_none l _ h1)
  | none =>
    rw [h1] at h
    exact Or.inr (visAlt2_sm_none l caps h)

theorem visSearchVMC_invariant :
    ∀ (l : List Char) (caps : VisCapsVMC), visSearchVMC l = some caps →
      caps.meter = none ∨ (caps.const = none ∧ caps.num = none ∧ caps.den = none) := by
  intro l
  induction l with
  | nil => intro caps h; simp [visSearchVMC] at h
  | cons c r ih =>
    intro caps h
    simp only [visSearchVMC] at h
    cases hm : visMatchVMC (c :: r) with
    | some x =>
      rw [hm] at h
      simp only [Option.some.injEq] at h
      subst h
      exact visMatchVMC_invariant _ _ hm
    | none =>
      rw [hm] at h
      exact ih caps h

/-- One successful repetition of a repeatable group's inner loop. -/
theorem innerLoop_step (a : Attempt) (id : String) (s : List Char)
    (fuel pos : Nat) (acc t : String) (p : Nat)
    (h : a s pos = some (t, p)) (ht : t ≠ "") :
    innerLoop a id true s (fuel + 1) pos acc =
      innerLoop a id true s fuel p (acc ++ (id ++ ": " ++ t ++ ";")) := by
  simp only [innerLoop, h, if_neg ht, if_true, eq_self_iff_true]

/-- A textless attempt ends the inner loop at the current cursor. -/
theorem innerLoop_stop (a : Attempt) (id : String) (rep : Bool) (s : List Char)
    (fuel pos : Nat) (acc : String) (q : Nat) (h : a s pos = some ("", q)) :
    innerLoop a id rep s (fuel + 1) pos acc = some (some (acc, pos)) := by
  simp [innerLoop, h]

/-! ## The claims -/

/-- C1 (counterexample): on a stream whose first line contains the TAF token
while seeking, `getNextRecord` ends immediately with the end-of-stream marker
`""`, even though a complete record follows — the record the same call
returns once the TAF line is removed.  This refutes the claim that the
search continues on the next line and that only end-of-stream yields the
marker. -/
theorem c1_counterexample :
    getNextRecord [" TAF ABCD\n", "123456789012 KJFK=\n"] = "" ∧
    getNextRecord ["123456789012 KJFK=\n"] = "123456789012 KJFK" := by
  exact ⟨by decide, by decide⟩

/-- C1 (amended): while seeking, a line that is not a start line and is
either empty (end-of-stream) or contains the whitespace-delimited TAF token
makes `getNextRecord` end with the end-of-stream marker `""`, abandoning the
rest of the stream; earlier sought-over lines do not affect this. -/
theorem c1_taf_ends_call (pre : List String) (l : String) (ls : List String)
    (hpre : ∀ x ∈ pre, isRecordStart x = false ∧ x ≠ "" ∧ isTAFRecord x = false)
    (hl : isRecordStart l = false) (hend : l = "" ∨ isTAFRecord l = true) :
    getNextRecord (pre ++ l :: ls) = "" := by
  unfold getNextRecord
  rw [seekLoop_skips pre (l :: ls) hpre]
  have hs : seekLoop (l :: ls) = none := by
    simp only [seekLoop, hl, Bool.false_eq_true, if_false]
    rcases hend with h | h
    · simp [h]
    · simp [h]
  rw [hs]

/-- C1 (witness): the amended theorem at a concrete stream. -/
theorem c1_witness :
    getNextRecord (["junk\n"] ++ " TAF ABCD\n" :: ["123456789012 X=\n"]) = "" :=
  c1_taf_ends_call ["junk\n"] " TAF ABCD\n" ["123456789012 X=\n"]
    (by decide) (by decide) (Or.inr (by decide))

/-- C2 (counterexample): the report text `"CAVOK"` contains the literal
marker, yet the classifier does not take the shortcut (the pattern is
`\sCAVOK\s`, and no surrounding whitespace exists), and the verdict is
`False` because no visibility group is found. -/
theorem c2_counterexample : vmcMinima "CAVOK" = some false := by decide

/-- C2 (amended): for every report text containing `CAVOK` with a whitespace
character immediately before and after it, the classifier returns the
"meets minima" verdict immediately. -/
theorem c2_cavok_shortcut (pre post : List Char) (c1 c2 : Char)
    (h1 : pSpace c1 = true) (h2 : pSpace c2 = true) :
    vmcMinima (String.mk (pre ++ c1 :: 'C' :: 'A' :: 'V' :: 'O' :: 'K' :: c2 :: post)) =
      some true := by
  have hc : cavokHere (c1 :: 'C' :: 'A' :: 'V' :: 'O' :: 'K' :: c2 :: post) = true := by
    simp [cavokHere, h1, h2]
  have hs : searchCavok (pre ++ c1 :: 'C' :: 'A' :: 'V' :: 'O' :: 'K' :: c2 :: post) = true :=
    searchCavok_append _ _ (searchCavok_here _ hc)
  have hdata : (String.mk (pre ++ c1 :: 'C' :: 'A' :: 'V' :: 'O' :: 'K' :: c2 :: post)).data =
      pre ++ c1 :: 'C' :: 'A' :: 'V' :: 'O' :: 'K' :: c2 :: post := rfl
  simp only [vmcMinima, hdata, hs, if_true]

/-- C2 (witness): the amended theorem at the concrete text `" CAVOK "`. -/
theorem c2_witness :
    vmcMinima (String.mk ([] ++ ' ' :: 'C' :: 'A' :: 'V' :: 'O' :: 'K' :: ' ' :: [])) =
      some true :=
  c2_cavok_shortcut [] [] ' ' ' ' (by decide) (by decide)

set_option maxRecDepth 16384 in
set_option maxHeartbeats 1600000 in
/-- C3 (counterexample): the claimed equation fails on reports it covers.
On `" 1/0SM "` (no CAVOK) the classifier reaches the statute-mile division
with denominator 0, raises `ZeroDivisionError`, and yields no verdict at
all.  And on a quotient within half an ulp below 3 statute miles the
program's double-precision comparison answers True while the exact
integer-plus-fraction value is below 3, so reading the claim's comparison
exactly also contradicts the code. -/
theorem c3_counterexample :
    vmcMinima " 1/0SM " = none ∧
    vmcMinima " 1/0SM " ≠
      some (ceilingSpec (String.data " 1/0SM ") && visibilitySpec (String.data " 1/0SM ")) ∧
    vmcMinima " 2999999999999999999999/1000000000000000000000SM " = some true ∧
    ¬((3 : ℚ) ≤ (2999999999999999999999 : ℚ) / (1000000000000000000000 : ℚ)) := by
  refine ⟨by decide, by with_unfolding_all decide, by with_unfolding_all decide, by norm_num⟩

/-- C3 (amended): without the CAVOK shortcut, and whenever the classifier
raises no exception (when the found visibility group's statute-mile branch
is evaluated, its denominator is non-zero and its quotient is below the
binary64 overflow threshold), the verdict is exactly the conjunction of the
documented ceiling check (no broken/overcast group → satisfied, otherwise
minimum height ≥ 15) and the documented visibility check (meter form →
value ≥ 5000, statute-mile form → the double-precision value of
`constant + numerator/denominator`, as the program computes it, is at
least 3, no group → not satisfied). -/
theorem c3_vmc_verdict (s : String) (hcav : searchCavok s.data = false)
    (hvis : visOk s.data = true) :
    vmcMinima s = some (ceilingSpec s.data && visibilitySpec s.data) := by
  simp only [vmcMinima, ceilingSpec, visibilitySpec, hcav, Bool.false_eq_true, if_false]
  cases hv : visSearchVMC s.data with
  | none => simp [hv]
  | some caps =>
    simp only [hv]
    cases hmc : caps.meter with
    | some ds =>
      rcases visSearchVMC_invariant s.data caps hv with h | ⟨hc, hn, hd⟩
      · rw [hmc] at h
        exact absurd h (by simp)
      · by_cases h0 : natDigits ds = 0
        · simp only [hmc, hc, hn, hd, h0, Nat.cast_zero, Nat.cast_one]
          rw [if_neg (not_le.mpr (show (0 : ℚ) / 1 < overflowThreshold by
            simpa using overflowThreshold_pos))]
          norm_num [roundDouble_zero]
        · simp [hmc, h0]
    | none =>
      simp only [hmc]
      have hx := hvis
      simp only [visOk, hv, hmc, Bool.and_eq_true, decide_eq_true_eq] at hx
      obtain ⟨hd0, hov⟩ := hx
      simp only [ne_eq, not_true_eq_false, Bool.false_eq_true, if_false,
        if_neg hd0, if_neg (not_le.mpr hov)]

/-- C3 (witness): the amended theorem at the concrete report `" 2000 "`
(no CAVOK, no exception, no ceiling group, meter visibility 2000 < 5000,
so the verdict is `False`). -/
theorem c3_witness :
    vmcMinima " 2000 " =
      some (ceilingSpec (String.data " 2000 ") && visibilitySpec (String.data " 2000 ")) :=
  c3_vmc_verdict " 2000 " (by decide) (by decide)

set_option maxRecDepth 16384 in
set_option maxHeartbeats 1600000 in
/-- C4 (counterexample): `decodeMetar` can raise.  On `"1/0SM"` the
visibility group matches with denominator 0 and `_handle_visibility`
divides by zero (`ZeroDivisionError`); on a report of 326 nines before
`SM`, the fractional-visibility numerator keeps 310 digits after the
timestamp and station groups, and converting the quotient to a float
overflows (`OverflowError`).  Both runs raise instead of returning
normally, refuting "never an exception". -/
theorem c4_counterexample :
    decodeMetar "1/0SM" = some none ∧
    decodeMetar (String.mk (List.replicate 326 '9' ++ ['S', 'M'])) = some none := by
  refine ⟨by decide, by with_unfolding_all decide⟩

/-- C4 (amended): on every report string whose decode raises no handler
exception — a zero-denominator fractional visibility (`ZeroDivisionError`),
a fractional-visibility quotient at or above the binary64 overflow
threshold (`OverflowError`), or a `|` runway prefix reaching the
translation dictionary (`KeyError`) — a failed group does not abort the
decode: the call returns normally with a message slot for every one of the
twelve groups, in table order, and the error string lists exactly the
groups whose slot stayed empty. -/
theorem c4_no_abort (s : String) (hex : decodeMetar s ≠ some none) :
    ∃ msg err, decodeMetar s = some (some (msg, err)) ∧
      msg.map Prod.fst = groupNames ∧ err = errorsOf msg := by
  rcases decode_shape s with h | h
  · exact absurd h hex
  · exact h

/-- C4 (witness): the amended theorem at the concrete report `"X"`, on which
every group fails and the decode still returns all twelve slots plus the
complete error list. -/
theorem c4_witness :
    decodeMetar "X" ≠ some none ∧
    ∃ msg err, decodeMetar "X" = some (some (msg, err)) ∧
      msg.map Prod.fst = groupNames ∧ err = errorsOf msg :=
  ⟨by decide, c4_no_abort "X" (by decide)⟩

/-- C5: (1) whenever the inner loop of any grammar-table entry returns
normally, the cursor it returns is at least the cursor it started from —
each group application, including each repetition of a repeatable group, is
monotone; (2) an attempt that produces no text leaves the loop immediately
with the accumulated renderings and the cursor exactly where the failed
attempt was made (the end position of the last successful match). -/
theorem c5_cursor_monotone :
    (∀ e ∈ handlers, ∀ (s : List Char) (fuel pos : Nat) (acc x : String) (p : Nat),
        innerLoop e.2.1 e.1 e.2.2 s fuel pos acc = some (some (x, p)) → pos ≤ p) ∧
    (∀ e ∈ handlers, ∀ (s : List Char) (fuel pos : Nat) (acc : String) (q : Nat),
        e.2.1 s pos = some ("", q) →
        innerLoop e.2.1 e.1 e.2.2 s (fuel + 1) pos acc = some (some (acc, pos))) := by
  constructor
  · intro e he s fuel pos acc x p h
    exact innerLoop_mono e.2.1 e.1 e.2.2 s (handlers_props e he).1 fuel pos acc x p h
  · intro e he s fuel pos acc q h
    simp [innerLoop, h]

/-- C5 (witness): both parts at concrete inputs — a fulltime application
advancing the cursor from 0 to 12, and a failed wind attempt leaving the
cursor at 0. -/
theorem c5_witness :
    ((0 : Nat) ≤ 12 ∧
      innerLoop attemptFulltime "fulltime" false (String.data "190510051200") 13 0 "" =
        some (some ("fulltime: 1905-10-05 12:00;", 12))) ∧
    innerLoop attemptWind "wind" false (String.data "zz") (3 + 1) 0 "q" =
      some (some ("q", 0)) :=
  ⟨⟨c5_cursor_monotone.1 ("fulltime", attemptFulltime, false) (by simp [handlers])
      (String.data "190510051200") 13 0 "" "fulltime: 1905-10-05 12:00;" 12 (by decide),
    by decide⟩,
   c5_cursor_monotone.2 ("wind", attemptWind, false) (by simp [handlers])
      (String.data "zz") 3 0 "q" 0 (by decide)⟩

/-- C6: (1) for every grammar-table entry, zero matches leave that group's
message slot as the empty sequence and append its mandatory-group error
entry (every group of this table is mandatory: the source records an error
whenever a slot stays empty); (2) for every repeatable entry, two
consecutive matches followed by a failed attempt accumulate exactly the two
renderings in match order, with the cursor at the second match's end. -/
theorem c6_repeatable :
    (∀ e ∈ handlers,
      ∀ (s : List Char) (pos : Nat) (msg : List (String × String)) (err : String) (q : Nat),
        e.2.1 s pos = some ("", q) →
        outerLoop s [e] pos msg err =
          some (some (msg ++ [(e.1, "")], err ++ (e.1 ++ ":  no text matched;")))) ∧
    (∀ e ∈ handlers, e.2.2 = true →
      ∀ (s : List Char) (fuel pos : Nat) (t1 : String) (p1 : Nat) (t2 : String) (p2 q : Nat),
        e.2.1 s pos = some (t1, p1) → t1 ≠ "" →
        e.2.1 s p1 = some (t2, p2) → t2 ≠ "" →
        e.2.1 s p2 = some ("", q) →
        innerLoop e.2.1 e.1 e.2.2 s (fuel + 3) pos "" =
          some (some ((("" ++ (e.1 ++ ": " ++ t1 ++ ";")) ++ (e.1 ++ ": " ++ t2 ++ ";")), p2))) := by
  constructor
  · intro e he s pos msg err q h
    obtain ⟨id, a, rep⟩ := e
    dsimp only at h ⊢
    simp only [outerLoop]
    rw [innerLoop_stop a id rep s s.length pos "" q h]
    simp [outerLoop]
  · intro e he hrep s fuel pos t1 p1 t2 p2 q h1 ht1 h2 ht2 h3
    obtain ⟨id, a, rep⟩ := e
    dsimp only at hrep h1 h2 h3 ⊢
    subst hrep
    calc innerLoop a id true s (fuel + 3) pos ""
        = innerLoop a id true s (fuel + 2) p1 ("" ++ (id ++ ": " ++ t1 ++ ";")) := by
          rw [show fuel + 3 = (fuel + 2) + 1 from rfl]
          exact innerLoop_step a id s (fuel + 2) pos "" t1 p1 h1 ht1
      _ = innerLoop a id true s (fuel + 1) p2
            (("" ++ (id ++ ": " ++ t1 ++ ";")) ++ (id ++ ": " ++ t2 ++ ";")) := by
          rw [show fuel + 2 = (fuel + 1) + 1 from rfl]
          exact innerLoop_step a id s (fuel + 1) p1 _ t2 p2 h2 ht2
      _ = some (some ((("" ++ (id ++ ": " ++ t1 ++ ";")) ++ (id ++ ": " ++ t2 ++ ";")), p2)) :=
          innerLoop_stop a id true s fuel p2 _ q h3

/-- C6 (witness): both parts at the repeatable clouds entry — zero matches
on `" "` produce the empty slot plus its error entry; the two layers of
`"BKN010 OVC020"` are accumulated in match order with the cursor at 13. -/
theorem c6_witness :
    outerLoop (String.data " ") [("clouds", attemptClouds, true)] 0 [] "e" =
      some (some ([("clouds", "")], "e" ++ ("clouds" ++ ":  no text matched;"))) ∧
    innerLoop attemptClouds "clouds" true (String.data "BKN010 OVC020") (0 + 3) 0 "" =
      some (some ((("" ++ ("clouds" ++ ": " ++ "broken 010" ++ ";")) ++
        ("clouds" ++ ": " ++ "overcast 020" ++ ";")), 13)) :=
  ⟨c6_repeatable.1 ("clouds", attemptClouds, true) (by simp [handlers])
      (String.data " ") 0 [] "e" 0 (by decide),
   c6_repeatable.2 ("clouds", attemptClouds, true) (by simp [handlers]) rfl
      (String.data "BKN010 OVC020") 0 0 "broken 010" 7 "overcast 020" 13 13
      (by decide) (by decide) (by decide) (by decide) (by decide)⟩

/-- C7 (counterexample): the line `"1234567890123"` has thirteen leading
digits, so by the claim it should not satisfy the start condition — yet
`isRecordStart` accepts it (`\s*\d{12}` under `re.match` anchors nothing
after the twelfth digit). -/
theorem c7_counterexample :
    isRecordStart "1234567890123" = true ∧
    (takeRun pDigit (takeRun pSpace (String.data "1234567890123")).2).1.length = 13 := by
  exact ⟨by decide, by decide⟩

/-- C7 (amended): a line satisfies the Record Segmenter's start condition if
and only if its content begins, after leading whitespace, with at least
twelve decimal digits. -/
theorem c7_start_iff (line : String) :
    isRecordStart line = true ↔
      12 ≤ (takeRun pDigit (takeRun pSpace line.data).2).1.length := by
  unfold isRecordStart
  exact takeK_isSome_iff pDigit 12 (takeRun pSpace line.data).2

/-- C8: `decodeMetar` neither reads nor writes the object state beyond the
grammar table fixed at construction: the state is returned unchanged, the
result does not depend on the incoming state, and decoding the same report
twice in sequence yields identical Decode Results and error lists. -/
theorem c8_deterministic (st st2 : MPState) (s : String) :
    (decodeMetarM st s).1 = st ∧
    (decodeMetarM st s).2 = (decodeMetarM st2 s).2 ∧
    (decodeMetarM ((decodeMetarM st s).1) s).2 = (decodeMetarM st s).2 :=
  ⟨rfl, rfl, rfl⟩

/-- C9: the wind group `"26002MPS"` decodes to direction `260`, sustained
speed `02`, absent gust (rendered `None`), unit meters-per-second, consuming
all eight characters. -/
theorem c9_wind_example :
    windMatch (String.data "26002MPS") =
      some ({ dir := ['2','6','0'], speed := ['0','2'], gust := none,
              unit := ['M','P','S'] }, []) ∧
    attemptWind (String.data "26002MPS") 0 =
      some ("direction: 260; sustain speed: 02; gust: None; unit: m/s", 8) := by
  exact ⟨by decide, by decide⟩

/-- C10: the Sequential Group Decoder terminates on every input string: with
the explicit fuel `s.length + 1` per group, no repeatable loop ever exhausts
it, because an attempt that yields text strictly consumes input and an
attempt that yields no text (including the weather pattern's zero-width or
whitespace-only match, whose rendering is empty) ends the repetition. -/
theorem c10_decoder_terminates (s : String) : (decodeMetar s).isSome = true := by
  rcases decode_shape s with h | ⟨msg, err, h, _, _⟩ <;> simp [h]
